import Mathlib

/-!
# fly `set-team`: flag validation and the team sent to the server

A shallow embedding of `commands/set_team.go` (the `SetTeamCommand` flags,
`CFAuth.IsConfigured`, `CFAuth.Validate`, `SetTeamCommand.ValidateFlags`,
`SetTeamCommand.Execute`) and of the diff renderer exercised by
`commands/internal/setpipelinehelpers/diff_test.go`.

Go strings are `String`, slices are `List`, an `error` is `Option String`
(`none` is `nil`, `some msg` is `errors.New(msg)`).
-/

namespace Fly

/-! ## Data model of `set_team.go` -/

/-- The `BasicAuth` flag group of `SetTeamCommand`. -/
structure BasicAuthFlags where
  Username : String
  Password : String
  deriving DecidableEq, Repr

/-- The `flaghelpers.GitHubTeamFlag` value; `Execute` reads the two fields below. -/
structure GitHubTeamFlag where
  OrganizationName : String
  TeamName : String
  deriving DecidableEq, Repr

/-- The `GitHubAuth` flag group of `SetTeamCommand`. -/
structure GitHubAuthFlags where
  ClientID : String
  ClientSecret : String
  Organizations : List String
  Teams : List GitHubTeamFlag
  Users : List String
  deriving DecidableEq, Repr

/-- The `CFAuth` struct. -/
structure CFAuth where
  ClientID : String
  ClientSecret : String
  Spaces : List String
  AuthURL : String
  TokenURL : String
  APIURL : String
  deriving DecidableEq, Repr

/-- The `SetTeamCommand` struct. -/
structure SetTeamCommand where
  TeamName : String
  BasicAuth : BasicAuthFlags
  GitHubAuth : GitHubAuthFlags
  CFAuth : CFAuth
  deriving DecidableEq, Repr

/-! ## Error messages, verbatim from the source -/

def errBasicAuth : String :=
  "Both username and password are required for basic auth."

def errGitHubClient : String :=
  "Both client-id and client-secret are required for github-auth."

def errGitHubMembers : String :=
  "At least one of the following is required for github-auth: organizations, teams, users"

def errCFClient : String :=
  "Both client-id and client-secret are required for cf-auth."

def errCFSpace : String :=
  "space is required for cf-auth."

def errCFURLs : String :=
  "auth-url, token-url and api-url are required for cf-auth."

/-! ## `CFAuth` methods -/

/-- `func (auth *CFAuth) IsConfigured() bool`. -/
def CFAuth.IsConfigured (auth : CFAuth) : Bool :=
  auth.ClientID != "" ||
    auth.ClientSecret != "" ||
    decide (auth.Spaces.length > 0) ||
    auth.AuthURL != "" ||
    auth.TokenURL != "" ||
    auth.APIURL != ""

/-- `func (auth *CFAuth) Validate() error`. -/
def CFAuth.Validate (auth : CFAuth) : Option String :=
  if auth.ClientID == "" || auth.ClientSecret == "" then
    some errCFClient
  else if auth.Spaces.length == 0 then
    some errCFSpace
  else if auth.AuthURL == "" || auth.TokenURL == "" || auth.APIURL == "" then
    some errCFURLs
  else
    none

/-! ## `SetTeamCommand.ValidateFlags` -/

/-- `func (command *SetTeamCommand) ValidateFlags() (bool, bool, error)`:
the triple `(hasBasicAuth, hasGitHubAuth, err)`.  `afterGitHub` is the code
that follows the `if hasGitHubAuth` block (the CF check and the final return). -/
def SetTeamCommand.ValidateFlags (command : SetTeamCommand) : Bool × Bool × Option String :=
  let hasBasicAuth := command.BasicAuth.Username != "" || command.BasicAuth.Password != ""
  if hasBasicAuth && (command.BasicAuth.Username == "" || command.BasicAuth.Password == "") then
    (false, false, some errBasicAuth)
  else
    let hasGitHubAuth := command.GitHubAuth.ClientID != "" || command.GitHubAuth.ClientSecret != "" ||
      decide (command.GitHubAuth.Organizations.length > 0) ||
      decide (command.GitHubAuth.Teams.length > 0) ||
      decide (command.GitHubAuth.Users.length > 0)
    let afterGitHub : Bool × Bool × Option String :=
      if command.CFAuth.IsConfigured then
        match command.CFAuth.Validate with
        | some err => (false, false, some err)
        | none => (hasBasicAuth, hasGitHubAuth, none)
      else
        (hasBasicAuth, hasGitHubAuth, none)
    if hasGitHubAuth then
      if command.GitHubAuth.ClientID == "" || command.GitHubAuth.ClientSecret == "" then
        (false, false, some errGitHubClient)
      else if command.GitHubAuth.Organizations.length == 0 &&
          command.GitHubAuth.Teams.length == 0 &&
          command.GitHubAuth.Users.length == 0 then
        (false, false, some errGitHubMembers)
      else
        afterGitHub
    else
      afterGitHub

/-- `func authMethodStatusDescription(enabled bool) string`. -/
def authMethodStatusDescription (enabled : Bool) : String :=
  if enabled then "enabled" else "disabled"

/-! ## `SetTeamCommand.Execute`

`atc.Team` and the collaborators `rc.LoadTarget`, `target.Validate`,
`interact.NewInteraction(..).Resolve`, `displayhelpers.Failf` and
`target.Client().Team(..).CreateOrUpdate` live outside this package.  The team
record carries the fields `Execute` assigns; the collaborators are parameters. -/

namespace atc

/-- The `atc.BasicAuth` literal built by `Execute`. -/
structure BasicAuth where
  BasicAuthUsername : String
  BasicAuthPassword : String
  deriving DecidableEq, Repr

/-- The `atc.GitHubTeam` literal built by `Execute`. -/
structure GitHubTeam where
  OrganizationName : String
  TeamName : String
  deriving DecidableEq, Repr

/-- The `atc.GitHubAuth` literal built by `Execute`. -/
structure GitHubAuth where
  ClientID : String
  ClientSecret : String
  Organizations : List String
  Teams : List GitHubTeam
  Users : List String
  deriving DecidableEq, Repr

/-- The `atc.Team` value built by `Execute`: `atc.Team{}` has both pointers nil. -/
structure Team where
  BasicAuth : Option BasicAuth
  GitHubAuth : Option GitHubAuth
  deriving DecidableEq, Repr

end atc

/-- The answers of the collaborators `Execute` calls. -/
structure Collaborators where
  /-- The error of `rc.LoadTarget(Fly.Target)`. -/
  loadTarget : Option String
  /-- The error of `target.Validate()`. -/
  targetValidate : Option String
  /-- The outcome of `Resolve(&confirm)`: an error, or the value left in `confirm`. -/
  resolve : Except String Bool
  /-- The error of `CreateOrUpdate(team)` on the team with the given name. -/
  createOrUpdate : String → atc.Team → Option String

/-- How a run of `Execute` ends. -/
inductive Termination where
  /-- `Execute` returned this error (`none` is `nil`). -/
  | returned (err : Option String)
  /-- `displayhelpers.Failf("bailing out")` ended the run: the call is the whole
  body of `if !confirm`, with no `return` after it, so it is taken not to come back. -/
  | bailedOut
  deriving DecidableEq, Repr

/-- What a run of `Execute` did: the lines printed, the `CreateOrUpdate` call made
(team name and team), and how it ended. -/
structure ExecuteOutcome where
  printed : List String
  sent : Option (String × atc.Team)
  termination : Termination
  deriving DecidableEq, Repr

/-- The team `Execute` builds between the confirmation and the API call
(lines 94-117), from the two booleans `ValidateFlags` returned. -/
def SetTeamCommand.buildTeam (command : SetTeamCommand) (hasBasicAuth hasGitHubAuth : Bool) :
    atc.Team :=
  let team : atc.Team := { BasicAuth := none, GitHubAuth := none }
  let team : atc.Team :=
    if hasBasicAuth then
      { team with
        BasicAuth := some
          { BasicAuthUsername := command.BasicAuth.Username
            BasicAuthPassword := command.BasicAuth.Password } }
    else team
  if hasGitHubAuth then
    let gitHubAuth : atc.GitHubAuth :=
      { ClientID := command.GitHubAuth.ClientID
        ClientSecret := command.GitHubAuth.ClientSecret
        Organizations := command.GitHubAuth.Organizations
        Teams := []
        Users := command.GitHubAuth.Users }
    let gitHubAuth := command.GitHubAuth.Teams.foldl
      (fun (acc : atc.GitHubAuth) ghTeam =>
        { acc with
          Teams := acc.Teams ++
            [{ OrganizationName := ghTeam.OrganizationName, TeamName := ghTeam.TeamName }] })
      gitHubAuth
    { team with GitHubAuth := some gitHubAuth }
  else team

/-- `func (command *SetTeamCommand) Execute([]string) error`. -/
def SetTeamCommand.Execute (command : SetTeamCommand) (env : Collaborators) : ExecuteOutcome :=
  match env.loadTarget with
  | some err => { printed := [], sent := none, termination := .returned (some err) }
  | none =>
    match env.targetValidate with
    | some err => { printed := [], sent := none, termination := .returned (some err) }
    | none =>
      match command.ValidateFlags with
      | (_, _, some err) => { printed := [], sent := none, termination := .returned (some err) }
      | (hasBasicAuth, hasGitHubAuth, none) =>
        let printed :=
          ["Team Name: " ++ command.TeamName,
           "Basic Auth: " ++ authMethodStatusDescription hasBasicAuth,
           "GitHub Auth: " ++ authMethodStatusDescription hasGitHubAuth]
        match env.resolve with
        | .error err => { printed := printed, sent := none, termination := .returned (some err) }
        | .ok false => { printed := printed, sent := none, termination := .bailedOut }
        | .ok true =>
          let team := command.buildTeam hasBasicAuth hasGitHubAuth
          match env.createOrUpdate command.TeamName team with
          | some err =>
            { printed := printed, sent := some (command.TeamName, team),
              termination := .returned (some err) }
          | none =>
            { printed := printed ++ ["team created"], sent := some (command.TeamName, team),
              termination := .returned none }

/-- Collaborators that all succeed, with the user answering the prompt with `confirm`. -/
def cooperative (confirm : Bool) : Collaborators :=
  { loadTarget := none
    targetValidate := none
    resolve := .ok confirm
    createOrUpdate := fun _ _ => none }

/-- A command that sets every CF flag and no other auth flag. -/
def cfOnlyCommand : SetTeamCommand :=
  { TeamName := "main"
    BasicAuth := { Username := "", Password := "" }
    GitHubAuth := { ClientID := "", ClientSecret := "", Organizations := [], Teams := [], Users := [] }
    CFAuth := { ClientID := "cf-id", ClientSecret := "cf-secret", Spaces := ["space-guid"],
                AuthURL := "https://uaa.example.com/oauth/authorize",
                TokenURL := "https://uaa.example.com/oauth/token",
                APIURL := "https://api.example.com" } }

/-! ## Predicates used to state the validation contract -/

/-- Basic auth passes validation: username and password are both empty or both non-empty. -/
def basicAuthConsistent (command : SetTeamCommand) : Prop :=
  (command.BasicAuth.Username = "" ∧ command.BasicAuth.Password = "") ∨
    (command.BasicAuth.Username ≠ "" ∧ command.BasicAuth.Password ≠ "")

/-- Exactly one of username and password is non-empty. -/
def exactlyOneBasic (command : SetTeamCommand) : Prop :=
  (command.BasicAuth.Username ≠ "" ∧ command.BasicAuth.Password = "") ∨
    (command.BasicAuth.Username = "" ∧ command.BasicAuth.Password ≠ "")

/-- At least one GitHub field (client-id, client-secret, organization, team, user) is set. -/
def gitHubAnySet (command : SetTeamCommand) : Prop :=
  command.GitHubAuth.ClientID ≠ "" ∨ command.GitHubAuth.ClientSecret ≠ "" ∨
    command.GitHubAuth.Organizations ≠ [] ∨ command.GitHubAuth.Teams ≠ [] ∨
    command.GitHubAuth.Users ≠ []

/-- No GitHub field is set. -/
def gitHubUnset (command : SetTeamCommand) : Prop :=
  command.GitHubAuth.ClientID = "" ∧ command.GitHubAuth.ClientSecret = "" ∧
    command.GitHubAuth.Organizations = [] ∧ command.GitHubAuth.Teams = [] ∧
    command.GitHubAuth.Users = []

/-- At least one of organizations, teams, users is non-empty. -/
def gitHubHasMembers (command : SetTeamCommand) : Prop :=
  command.GitHubAuth.Organizations ≠ [] ∨ command.GitHubAuth.Teams ≠ [] ∨
    command.GitHubAuth.Users ≠ []

/-- No CF field is set. -/
def cfUnset (auth : CFAuth) : Prop :=
  auth.ClientID = "" ∧ auth.ClientSecret = "" ∧ auth.Spaces = [] ∧
    auth.AuthURL = "" ∧ auth.TokenURL = "" ∧ auth.APIURL = ""

/-- Every CF field is set. -/
def cfComplete (auth : CFAuth) : Prop :=
  auth.ClientID ≠ "" ∧ auth.ClientSecret ≠ "" ∧ auth.AuthURL ≠ "" ∧
    auth.TokenURL ≠ "" ∧ auth.APIURL ≠ "" ∧ auth.Spaces ≠ []

/-- A command with the given team name and no auth flag at all. -/
def noAuthFlags (teamName : String) : SetTeamCommand :=
  { TeamName := teamName
    BasicAuth := { Username := "", Password := "" }
    GitHubAuth := { ClientID := "", ClientSecret := "", Organizations := [], Teams := [], Users := [] }
    CFAuth := { ClientID := "", ClientSecret := "", Spaces := [], AuthURL := "", TokenURL := "",
                APIURL := "" } }

/-! ## The diff renderer of `setpipelinehelpers`

`diff_test.go` calls `sph.Diff.Render`; the renderer itself is described by the
specification (sections 3, 4.1, 6 and 8), from which the definitions below are
taken. -/

/-- Modelled from the spec: the value of a snapshot field; `setpipelinehelpers`'s
`Diff` works on an "arbitrary nested mapping from field name to value" (section 3).
A scalar carries its "direct string conversion"; a nested structure carries its
fields in their natural (serialization) order. -/
inductive Value where
  | scalar (text : String)
  | nested (fields : List (String × Value))

/-- Modelled from the spec: the `ConfigSnapshot` of section 3, the ordered
`(name, value)` pairs of step 1 of `Render`. -/
abbrev ConfigSnapshot := List (String × Value)

/-- Modelled from the spec: the `Diff` of `setpipelinehelpers` (section 3), which
"owns exactly one `Before` and one `After` snapshot". -/
structure Diff where
  Before : ConfigSnapshot
  After : ConfigSnapshot

/-- Modelled from the spec: the `RedactionMarker` constant of section 3. -/
def RedactionMarker : String := "<redacted>"

/-- Modelled from the spec: the two conventions of the renderer of
`setpipelinehelpers` that section 4.1 leaves to the implementation.  `sensitive`
is the `SensitiveFieldSet` check of step 2 ("a fixed set of field-name patterns",
"exact or substring match"), as a predicate on field names; `nestedText` is the
text of a nested structure, built from the rendered entries of its fields
(step 3: "recursive application of the same redaction rule"). -/
structure RenderRules where
  sensitive : String → Bool
  nestedText : List String → String

mutual

/-- Modelled from the spec: the "canonical text form" of a value in step 3 of
`Render` (`setpipelinehelpers`): a scalar converts directly, a nested structure
applies the redaction rule to its own fields. -/
def valueText (rules : RenderRules) : Value → String
  | .scalar text => text
  | .nested fields => rules.nestedText (fieldEntries rules fields)

/-- Modelled from the spec: steps 2 and 3 of `Render` (`setpipelinehelpers`) over
the ordered fields: `"<name> : <redacted>"` for a sensitive name, otherwise
`"<name> : <value>"`. -/
def fieldEntries (rules : RenderRules) : List (String × Value) → List String
  | [] => []
  | (name, value) :: rest =>
    (if rules.sensitive name then name ++ " : " ++ RedactionMarker
      else name ++ " : " ++ valueText rules value) :: fieldEntries rules rest

end

/-- Modelled from the spec: step 5 of `Render` (`setpipelinehelpers`), "write each
line terminated by a newline". -/
def writeLines : List String → String
  | [] => ""
  | line :: rest => line ++ "\n" ++ writeLines rest

/-- Modelled from the spec: `Diff.Render(output, label)` of `setpipelinehelpers`
(section 4.1), as the text written to the sink: the label on its own line
(step 4), then the field lines of `Before` and of `After`, in order.  The sink is
one that accepts every write (the buffer of the test), and a `Value` is already
an ordered field list, so neither error of section 7 arises. -/
def Diff.Render (rules : RenderRules) (diff : Diff) (label : String) : String :=
  writeLines (label :: (fieldEntries rules diff.Before ++ fieldEntries rules diff.After))

/-- The text `expected` occurs in `output` (what `gbytes.Say` checks for a
pattern without regular-expression operators). -/
def Says (output expected : String) : Prop :=
  expected.data <:+: output.data

instance (output expected : String) : Decidable (Says output expected) := by
  unfold Says; infer_instance

mutual

/-- The two values are the same except inside fields with a sensitive name. -/
def sameValueOutsideSensitive (rules : RenderRules) : Value → Value → Bool
  | .scalar a, .scalar b => a == b
  | .nested fs, .nested gs => sameOutsideSensitive rules fs gs
  | _, _ => false

/-- The two snapshots have the same field names in the same order and differ
only in the values of fields with a sensitive name, at any depth. -/
def sameOutsideSensitive (rules : RenderRules) :
    List (String × Value) → List (String × Value) → Bool
  | [], [] => true
  | (n, v) :: fs, (m, w) :: gs =>
    n == m && (rules.sensitive n || sameValueOutsideSensitive rules v w) &&
      sameOutsideSensitive rules fs gs
  | _, _ => false

end

/-- The rules of the reference test: exactly the field `name` is sensitive; a
nested structure is written as its entries separated by commas. -/
def testRules : RenderRules :=
  { sensitive := fun name => name == "name"
    nestedText := fun entries => ", ".intercalate entries }

/-- The `Diff` of `diff_test.go`, through `yaml.Marshal`'s lower-cased field name. -/
def testDiff : Diff :=
  { Before := [("name", .scalar "beforeName")]
    After := [("name", .scalar "afterName")] }

/-! ## Helper lemmas -/

theorem errors_distinct :
    errBasicAuth ≠ errGitHubClient ∧ errBasicAuth ≠ errGitHubMembers ∧
      errGitHubClient ≠ errGitHubMembers ∧
      errCFClient ≠ errBasicAuth ∧ errCFSpace ≠ errBasicAuth ∧ errCFURLs ≠ errBasicAuth ∧
      errCFClient ≠ errGitHubClient ∧ errCFSpace ≠ errGitHubClient ∧
      errCFURLs ≠ errGitHubClient ∧
      errCFClient ≠ errGitHubMembers ∧ errCFSpace ≠ errGitHubMembers ∧
      errCFURLs ≠ errGitHubMembers := by
  decide

theorem cf_validate_range (auth : CFAuth) :
    auth.Validate = none ∨ auth.Validate = some errCFClient ∨
      auth.Validate = some errCFSpace ∨ auth.Validate = some errCFURLs := by
  unfold CFAuth.Validate
  split_ifs <;> simp

theorem cf_check_none_iff (auth : CFAuth) :
    (if auth.IsConfigured then auth.Validate else none) = none ↔
      (cfUnset auth ∨ cfComplete auth) := by
  obtain ⟨i, s, sp, a, t, u⟩ := auth
  simp only [CFAuth.IsConfigured, CFAuth.Validate, cfUnset, cfComplete]
  by_cases hi : i = "" <;> by_cases hs : s = "" <;> by_cases ha : a = "" <;>
    by_cases ht : t = "" <;> by_cases hu : u = "" <;> cases sp <;> simp [hi, hs, ha, ht, hu]

/-- The four ways `ValidateFlags` ends, each with the condition under which it is
taken; in the last one the error is that of the CF check. -/
theorem validateFlags_cases (command : SetTeamCommand) :
    (exactlyOneBasic command ∧ ¬ basicAuthConsistent command ∧
        command.ValidateFlags = (false, false, some errBasicAuth)) ∨
      (basicAuthConsistent command ∧ ¬ exactlyOneBasic command ∧
        gitHubAnySet command ∧ ¬ gitHubUnset command ∧
        (command.GitHubAuth.ClientID = "" ∨ command.GitHubAuth.ClientSecret = "") ∧
        command.ValidateFlags = (false, false, some errGitHubClient)) ∨
      (basicAuthConsistent command ∧ ¬ exactlyOneBasic command ∧
        command.GitHubAuth.ClientID ≠ "" ∧ command.GitHubAuth.ClientSecret ≠ "" ∧
        ¬ gitHubHasMembers command ∧
        command.ValidateFlags = (false, false, some errGitHubMembers)) ∨
      (basicAuthConsistent command ∧ ¬ exactlyOneBasic command ∧
        (gitHubUnset command ∨
          (command.GitHubAuth.ClientID ≠ "" ∧ command.GitHubAuth.ClientSecret ≠ "" ∧
            gitHubHasMembers command)) ∧
        ¬ (gitHubAnySet command ∧
          (command.GitHubAuth.ClientID = "" ∨ command.GitHubAuth.ClientSecret = "")) ∧
        command.ValidateFlags.2.2 =
          (if command.CFAuth.IsConfigured then command.CFAuth.Validate else none)) := by
  obtain ⟨n, ⟨u, p⟩, ⟨i, s, os, ts, us⟩, cf⟩ := command
  simp only [SetTeamCommand.ValidateFlags, basicAuthConsistent, exactlyOneBasic, gitHubUnset,
    gitHubAnySet, gitHubHasMembers]
  by_cases hu : u = "" <;> by_cases hp : p = "" <;> simp [hu, hp] <;>
    by_cases hi : i = "" <;> by_cases hs : s = "" <;> simp [hi, hs] <;>
    cases os <;> cases ts <;> cases us <;> simp <;>
    cases hc : cf.IsConfigured <;> cases hv : cf.Validate <;> simp

theorem cf_check_ne (auth : CFAuth) (msg : String)
    (h1 : errCFClient ≠ msg) (h2 : errCFSpace ≠ msg) (h3 : errCFURLs ≠ msg) :
    (if auth.IsConfigured then auth.Validate else none) ≠ some msg := by
  rcases cf_validate_range auth with h | h | h | h <;> split_ifs <;> simp [h, h1, h2, h3]

/-! ## The validation contract -/

/-- C1: `ValidateFlags` returns a nil error if and only if (1) the basic-auth
username and password are both empty or both non-empty, (2) no GitHub field is set
or client-id and client-secret are both non-empty and one of organizations, teams,
users is non-empty, and (3) no CF field is set or all of CF client-id,
client-secret, auth-url, token-url, api-url and spaces are non-empty; a command
with no auth flag at all is accepted. -/
theorem validateFlags_nil_iff (command : SetTeamCommand) (teamName : String) :
    (command.ValidateFlags.2.2 = none ↔
      basicAuthConsistent command ∧
        (gitHubUnset command ∨
          (command.GitHubAuth.ClientID ≠ "" ∧ command.GitHubAuth.ClientSecret ≠ "" ∧
            gitHubHasMembers command)) ∧
        (cfUnset command.CFAuth ∨ cfComplete command.CFAuth)) ∧
      (noAuthFlags teamName).ValidateFlags.2.2 = none := by
  refine ⟨?_, by simp [noAuthFlags, SetTeamCommand.ValidateFlags, CFAuth.IsConfigured]⟩
  rcases validateFlags_cases command with ⟨_, hb, hv⟩ | ⟨_, _, _, hg, hm, hv⟩ |
      ⟨_, _, hi, hs, hm, hv⟩ | ⟨hb, _, hg, _, hv⟩
  · simp [hv, hb]
  · have : ¬ (command.GitHubAuth.ClientID ≠ "" ∧ command.GitHubAuth.ClientSecret ≠ "" ∧
        gitHubHasMembers command) := by
      rintro ⟨h1, h2, _⟩
      rcases hm with h | h
      · exact h1 h
      · exact h2 h
    simp [hv, hg, this]
  · have : ¬ gitHubUnset command := fun h => hi h.1
    simp [hv, this, hm]
  · rw [hv, cf_check_none_iff]
    simp [hb, hg]

/-- C2: when exactly one of the basic-auth username and password is non-empty,
`ValidateFlags` returns the error "Both username and password are required for
basic auth.", whatever the GitHub and CF fields are; when they are both empty or
both non-empty it never returns that error. -/
theorem validateFlags_basicAuth_error (command : SetTeamCommand) :
    (exactlyOneBasic command →
        command.ValidateFlags = (false, false, some errBasicAuth)) ∧
      (basicAuthConsistent command → command.ValidateFlags.2.2 ≠ some errBasicAuth) := by
  obtain ⟨e1, e2, e3, e4, e5, e6, -⟩ := errors_distinct
  rcases validateFlags_cases command with ⟨_, hb, hv⟩ | ⟨hb, hx, _, _, _, hv⟩ |
      ⟨hb, hx, _, _, _, hv⟩ | ⟨hb, hx, _, _, hv⟩
  · exact ⟨fun _ => hv, fun h => absurd h hb⟩
  · refine ⟨fun h => absurd h hx, fun _ => ?_⟩
    rw [hv]
    simpa using e1.symm
  · refine ⟨fun h => absurd h hx, fun _ => ?_⟩
    rw [hv]
    simpa using e2.symm
  · refine ⟨fun h => absurd h hx, fun _ => ?_⟩
    rw [hv]
    exact cf_check_ne _ _ e4 e5 e6

/-- An instance of C2: a lone username is rejected although GitHub and CF auth
are both completely configured. -/
theorem validateFlags_basicAuth_error_witness :
    SetTeamCommand.ValidateFlags
        { TeamName := "main"
          BasicAuth := { Username := "admin", Password := "" }
          GitHubAuth := { ClientID := "id", ClientSecret := "secret", Organizations := ["org"],
                          Teams := [], Users := [] }
          CFAuth := cfOnlyCommand.CFAuth } =
      (false, false, some errBasicAuth) :=
  (validateFlags_basicAuth_error _).1 (by simp [exactlyOneBasic])

/-- C3: when the basic-auth fields pass validation and at least one GitHub field
is set while client-id or client-secret is empty, `ValidateFlags` returns the
error "Both client-id and client-secret are required for github-auth.". -/
theorem validateFlags_gitHub_client_error (command : SetTeamCommand)
    (hbasic : basicAuthConsistent command) (hset : gitHubAnySet command)
    (hmissing : command.GitHubAuth.ClientID = "" ∨ command.GitHubAuth.ClientSecret = "") :
    command.ValidateFlags = (false, false, some errGitHubClient) := by
  rcases validateFlags_cases command with ⟨_, hb, _⟩ | ⟨_, _, _, _, _, hv⟩ |
      ⟨_, _, hi, hs, _, _⟩ | ⟨_, _, _, hn, _⟩
  · exact absurd hbasic hb
  · exact hv
  · rcases hmissing with h | h
    · exact absurd h hi
    · exact absurd h hs
  · exact absurd ⟨hset, hmissing⟩ hn

/-- An instance of C3: a GitHub user with a client-id but no client-secret. -/
theorem validateFlags_gitHub_client_error_witness :
    SetTeamCommand.ValidateFlags
        { TeamName := "main"
          BasicAuth := { Username := "admin", Password := "hunter2" }
          GitHubAuth := { ClientID := "id", ClientSecret := "", Organizations := [],
                          Teams := [], Users := ["octocat"] }
          CFAuth := (noAuthFlags "main").CFAuth } =
      (false, false, some errGitHubClient) :=
  validateFlags_gitHub_client_error _ (by simp [basicAuthConsistent])
    (by simp [gitHubAnySet]) (by simp)

/-- C4: when the basic-auth fields pass validation, the GitHub client-id and
client-secret are both non-empty and organizations, teams and users are all empty,
`ValidateFlags` returns the error "At least one of the following is required for
github-auth: organizations, teams, users"; it never returns that error when one of
the three lists is non-empty. -/
theorem validateFlags_gitHub_members_error (command : SetTeamCommand) :
    (basicAuthConsistent command →
        command.GitHubAuth.ClientID ≠ "" → command.GitHubAuth.ClientSecret ≠ "" →
        command.GitHubAuth.Organizations = [] → command.GitHubAuth.Teams = [] →
        command.GitHubAuth.Users = [] →
        command.ValidateFlags = (false, false, some errGitHubMembers)) ∧
      (gitHubHasMembers command → command.ValidateFlags.2.2 ≠ some errGitHubMembers) := by
  obtain ⟨-, e2, e3, -, -, -, -, -, -, e10, e11, e12⟩ := errors_distinct
  rcases validateFlags_cases command with ⟨_, hb, hv⟩ | ⟨_, _, _, _, hm, hv⟩ |
      ⟨_, _, _, _, hm, hv⟩ | ⟨_, _, hg, _, hv⟩
  · refine ⟨fun h => absurd h hb, fun _ => ?_⟩
    rw [hv]
    simpa using e2
  · refine ⟨fun _ hi hs _ _ _ => ?_, fun _ => ?_⟩
    · rcases hm with h | h
      · exact absurd h hi
      · exact absurd h hs
    · rw [hv]
      simpa using e3
  · exact ⟨fun _ _ _ _ _ _ => hv, fun h => absurd h hm⟩
  · refine ⟨fun _ hi _ ho ht hu => ?_, fun _ => cf_check_ne _ _ e10 e11 e12 |> (hv ▸ ·)⟩
    rcases hg with h | ⟨_, _, h⟩
    · exact absurd h.1 hi
    · simp [gitHubHasMembers, ho, ht, hu] at h

/-- An instance of C4: client-id and client-secret without any organization, team
or user. -/
theorem validateFlags_gitHub_members_error_witness :
    SetTeamCommand.ValidateFlags
        { TeamName := "main"
          BasicAuth := { Username := "", Password := "" }
          GitHubAuth := { ClientID := "id", ClientSecret := "secret", Organizations := [],
                          Teams := [], Users := [] }
          CFAuth := (noAuthFlags "main").CFAuth } =
      (false, false, some errGitHubMembers) :=
  (validateFlags_gitHub_members_error _).1 (by simp [basicAuthConsistent]) (by simp) (by simp)
    rfl rfl rfl

/-! ## The team sent by `Execute` -/

/-- The team `Execute` builds does not read the CF flags. -/
theorem buildTeam_ignores_cf (command : SetTeamCommand) (cf : CFAuth) (hasBasicAuth hasGitHubAuth : Bool) :
    SetTeamCommand.buildTeam { command with CFAuth := cf } hasBasicAuth hasGitHubAuth =
      command.buildTeam hasBasicAuth hasGitHubAuth := rfl

/-- When every collaborator succeeds and the user confirms, a command that passes
`ValidateFlags` sends the team built from the two booleans it returned. -/
theorem execute_sends_built_team (command : SetTeamCommand) (hasBasicAuth hasGitHubAuth : Bool)
    (hvalid : command.ValidateFlags = (hasBasicAuth, hasGitHubAuth, none)) :
    (command.Execute (cooperative true)).sent =
      some (command.TeamName, command.buildTeam hasBasicAuth hasGitHubAuth) := by
  simp [SetTeamCommand.Execute, cooperative, hvalid]

/-- C5 (at the failing input): a command whose only auth flags are a complete set
of CF flags passes `ValidateFlags`; once confirmed, `Execute` sends a team with
neither basic auth nor GitHub auth and reports "team created".  The team sent is
the one sent for a command with no auth flag at all: the CF settings are not in it. -/
theorem execute_drops_cf_auth :
    cfOnlyCommand.CFAuth.IsConfigured = true ∧
      cfOnlyCommand.CFAuth.Validate = none ∧
      cfOnlyCommand.ValidateFlags = (false, false, none) ∧
      cfOnlyCommand.Execute (cooperative true) =
        { printed := ["Team Name: main", "Basic Auth: disabled", "GitHub Auth: disabled",
                      "team created"]
          sent := some ("main", { BasicAuth := none, GitHubAuth := none })
          termination := .returned none } ∧
      (cfOnlyCommand.Execute (cooperative true)).sent =
        ((noAuthFlags "main").Execute (cooperative true)).sent := by
  decide

/-! ## The diff renderer -/

theorem says_of_data_eq (output expected : String) (before after : List Char)
    (h : output.data = before ++ expected.data ++ after) : Says output expected :=
  ⟨before, after, h.symm⟩

mutual

theorem valueText_eq_of_same (rules : RenderRules) :
    ∀ v w : Value, sameValueOutsideSensitive rules v w = true →
      valueText rules v = valueText rules w
  | .scalar a, .scalar b, h => by
    simp only [sameValueOutsideSensitive, beq_iff_eq] at h
    simp [valueText, h]
  | .nested fs, .nested gs, h => by
    simp only [sameValueOutsideSensitive] at h
    simp [valueText, fieldEntries_eq_of_same rules fs gs h]
  | .scalar _, .nested _, h => by simp [sameValueOutsideSensitive] at h
  | .nested _, .scalar _, h => by simp [sameValueOutsideSensitive] at h

theorem fieldEntries_eq_of_same (rules : RenderRules) :
    ∀ fs gs : List (String × Value), sameOutsideSensitive rules fs gs = true →
      fieldEntries rules fs = fieldEntries rules gs
  | [], [], _ => rfl
  | [], _ :: _, h => by simp [sameOutsideSensitive] at h
  | _ :: _, [], h => by simp [sameOutsideSensitive] at h
  | (n, v) :: fs, (m, w) :: gs, h => by
    simp only [sameOutsideSensitive, Bool.and_eq_true, Bool.or_eq_true, beq_iff_eq] at h
    obtain ⟨⟨hn, hv⟩, hrest⟩ := h
    subst hn
    have ih := fieldEntries_eq_of_same rules fs gs hrest
    cases hs : rules.sensitive n
    · have hvw := valueText_eq_of_same rules v w (by simpa [hs] using hv)
      simp [fieldEntries, hs, hvw, ih]
    · simp [fieldEntries, hs, ih]

end

/-- C6 (as stated, refuted): with `name` sensitive and the `Diff` of the reference
test, rendering under the label "beforeName" writes output that contains the value
of the `name` field of `Before`. -/
theorem render_label_shows_value :
    testRules.sensitive "name" = true ∧
      Says (Diff.Render testRules
          { Before := [("name", .scalar "beforeName")], After := [("name", .scalar "afterName")] }
          "beforeName")
        "beforeName" := by
  decide

/-- C6 (amended): when `name` is sensitive and `Before` has the single field
`name`, `Render` writes output that contains "name : <redacted>" and that is the
same whatever the value of the field; for the `Diff` of the reference test and the
label "someLabel" the output does not contain "beforeName". -/
theorem render_single_name_redacted (rules : RenderRules) (hname : rules.sensitive "name" = true)
    (value other label : String) (after : ConfigSnapshot) :
    Says (Diff.Render rules { Before := [("name", .scalar value)], After := after } label)
        "name : <redacted>" ∧
      Diff.Render rules { Before := [("name", .scalar value)], After := after } label =
        Diff.Render rules { Before := [("name", .scalar other)], After := after } label ∧
      ¬ Says (Diff.Render testRules testDiff "someLabel") "beforeName" := by
  refine ⟨?_, ?_, by decide⟩
  · apply says_of_data_eq _ _ (label.data ++ ['\n']) (['\n'] ++ (writeLines (fieldEntries rules after)).data)
    simp [Diff.Render, writeLines, fieldEntries, hname, RedactionMarker]
  · simp [Diff.Render, fieldEntries, hname]

/-- An instance of the amended C6: the reference test itself. -/
theorem render_single_name_redacted_witness :
    testRules.sensitive "name" = true ∧
      Says (Diff.Render testRules testDiff "someLabel") "name : <redacted>" ∧
      Diff.Render testRules testDiff "someLabel" =
        Diff.Render testRules
          { Before := [("name", .scalar "anotherName")], After := testDiff.After } "someLabel" ∧
      ¬ Says (Diff.Render testRules testDiff "someLabel") "beforeName" :=
  ⟨by decide,
    render_single_name_redacted testRules (by decide) "beforeName" "anotherName" "someLabel"
      testDiff.After⟩

/-- C7: two diffs whose snapshots differ only in the values of fields with a
sensitive name, at any nesting depth, render to identical output for the same
label: the values of sensitive fields do not reach the output. -/
theorem render_hides_sensitive_values (rules : RenderRules) (d d' : Diff) (label : String)
    (hbefore : sameOutsideSensitive rules d.Before d'.Before = true)
    (hafter : sameOutsideSensitive rules d.After d'.After = true) :
    Diff.Render rules d label = Diff.Render rules d' label := by
  simp [Diff.Render, fieldEntries_eq_of_same rules _ _ hbefore,
    fieldEntries_eq_of_same rules _ _ hafter]

/-- An instance of C7: the secret sits one level down, next to a field that is
not sensitive. -/
theorem render_hides_sensitive_values_witness :
    Diff.Render testRules
        { Before := [("job", .nested [("name", .scalar "s3cret"), ("host", .scalar "example.com")])]
          After := [("name", .nested [("host", .scalar "a")])] }
        "someLabel" =
      Diff.Render testRules
        { Before := [("job", .nested [("name", .scalar "hunter2"), ("host", .scalar "example.com")])]
          After := [("name", .scalar "b")] }
        "someLabel" :=
  render_hides_sensitive_values testRules _ _ "someLabel" (by decide) (by decide)

end Fly
